import Mathlib

/-!
Verification of the tile-matching ("Lianliankan") game in `script.js`.

The first part embeds the shipped JavaScript shallowly in Lean:
pure functions (`shuffleArray`, `generateTiles`, `isMatchPossible`,
`isPathValid`) become Lean functions, the mutable game state becomes an
explicit `GameState` record, and the DOM click handler `handleTileClick`
becomes a state-transition function returning `Except` (a thrown
JavaScript `TypeError` is modelled as `Except.error`).  `Math.random()`
is modelled by an explicit stream of numbers `rand : Nat → Nat`; the
JavaScript expression `Math.floor(Math.random() * (i + 1))`, whose value
always lies in `[0, i]`, is modelled as `rand i % (i + 1)`.

The second part models the *intended* path-validity operation
(`findPath`) from the specification, because in the source that
operation is only a stub (`isPathValid` unconditionally returns
`false`); the claims about the path-validity contract are settled
against that spec-derived model.
-/

/-- A tile as seen by the click handler: the `dataset` of the clicked
DOM element carries its row, column and tile type.  DOM element identity
is modelled by the (row, col) position, which uniquely identifies an
element on the board. -/
structure TileRef where
  row : Nat
  col : Nat
  type : String
deriving DecidableEq, Repr

/-- Source lines 177-186: the shipped match check.  The body is a stub
that ignores both arguments and returns `true` ("临时允许所有同类型匹配"). -/
def isMatchPossible (_tile1 _tile2 : TileRef) : Bool :=
  true

/-- Source lines 300-309: the intended path check.  The body is an
unimplemented placeholder that ignores both arguments and returns
`false`. -/
def isPathValid (_tile1 _tile2 : TileRef) : Bool :=
  false

/-- A board cell as pushed by `createBoard` (line 90):
`{ element, type, row, col, visible }`; the DOM element itself is not
modelled, its identity being determined by (row, col). -/
structure Cell where
  type : String
  row : Nat
  col : Nat
  visible : Bool
deriving DecidableEq, Repr

/-- JavaScript `arr[i] = f(arr[i])` on a list: modify the element at
index `i` if it exists, otherwise leave the list unchanged. -/
def modifyAt (l : List α) (i : Nat) (f : α → α) : List α :=
  match l[i]? with
  | some x => l.set i (f x)
  | none => l

/-- Read `grid[r][c]` from a 2D array of cells. -/
def cellLookup (g : List (List Cell)) (r c : Nat) : Option Cell :=
  (g[r]?).bind (fun rowCells => rowCells[c]?)

/-- Clear a cell's `visible` flag, leaving its type and position
untouched. -/
def hideCell (cell : Cell) : Cell :=
  { cell with visible := false }

/-- Source lines 133-134: `state.board[r][c].visible = false`. -/
def setInvisible (g : List (List Cell)) (r c : Nat) : List (List Cell) :=
  modifyAt g r (fun rowCells => modifyAt rowCells c hideCell)

/-- The mutable game state of lines 14-21 (timer id and DOM references
are not modelled). -/
structure GameState where
  board : List (List Cell)
  selectedTile : Option TileRef
  score : Nat
  tilesRemaining : Nat
deriving DecidableEq, Repr

/-- A thrown JavaScript runtime error, e.g. the `TypeError` raised by
reading `.element` from `null`. -/
inductive JsError where
  | typeError
deriving DecidableEq, Repr

/-- Source lines 149-156, the "type matches but path blocked" branch of
`handleTileClick`, statement by statement:
line 151 reads `state.selectedTile.element` (throws if `selectedTile`
is `null`); line 152 assigns `state.selectedTile = null`; line 154
flashes the clicked element (no state effect); line 155 then reads
`state.selectedTile.element` again — but `selectedTile` was just set to
`null`, so this dereference always throws a `TypeError`. -/
def rejectBranch (st : GameState) : Except JsError GameState :=
  match st.selectedTile with
  | none => Except.error JsError.typeError
  | some _ =>
    let st1 := { st with selectedTile := none }
    match st1.selectedTile with
    | none => Except.error JsError.typeError
    | some _ => Except.ok st1

/-- True iff the clicked element carries the `hidden` CSS class; the
class is kept in sync with the board cell's `visible` flag
(lines 131-134), so it is read off the board. -/
def isHiddenAt (g : List (List Cell)) (r c : Nat) : Bool :=
  match cellLookup g r c with
  | some cell => !cell.visible
  | none => false

/-- True iff the clicked element carries the `selected` CSS class; that
class is held exactly by the element of `state.selectedTile`
(lines 116-117), and element identity is (row, col). -/
def hasSelectedClass (st : GameState) (clicked : TileRef) : Bool :=
  match st.selectedTile with
  | some t => t.row == clicked.row && t.col == clicked.col
  | none => false

/-- Source lines 102-168: `handleTileClick`, as a transition on
`GameState` for a click on the element described by `clicked`.
Branches in source order: early return when the element is hidden or
already selected (lines 105-107); first click selects (lines 114-117);
clicking the selected element again deselects (lines 120-123); a
same-type second click runs `isMatchPossible` and on success hides both
cells, adds 10 points and clears the selection (lines 126-148), while
on failure it runs the faulty rejection sequence of lines 149-156; a
different-type second click moves the selection (lines 157-165). -/
def handleTileClick (st : GameState) (clicked : TileRef) : Except JsError GameState :=
  if isHiddenAt st.board clicked.row clicked.col || hasSelectedClass st clicked then
    Except.ok st
  else
    match st.selectedTile with
    | none => Except.ok { st with selectedTile := some clicked }
    | some sel =>
      if sel.row == clicked.row && sel.col == clicked.col then
        Except.ok { st with selectedTile := none }
      else if sel.type == clicked.type then
        if isMatchPossible sel clicked then
          Except.ok { st with
            board := setInvisible (setInvisible st.board sel.row sel.col) clicked.row clicked.col,
            score := st.score + 10,
            tilesRemaining := st.tilesRemaining - 2,
            selectedTile := none }
        else
          rejectBranch st
      else
        Except.ok { st with selectedTile := some clicked }

/-- JavaScript array swap `[array[i], array[j]] = [array[j], array[i]]`
(line 38), guarded on both indices existing (they always do in the
source loop). -/
def listSwap (l : List α) (i j : Nat) : List α :=
  match l[i]?, l[j]? with
  | some a, some b => (l.set i b).set j a
  | _, _ => l

/-- The Fisher-Yates loop of lines 36-39, counting `i` down to 1;
`rand i % (i + 1)` models `Math.floor(Math.random() * (i + 1))`. -/
def fisherYates (rand : Nat → Nat) : List α → Nat → List α
  | l, 0 => l
  | l, i + 1 => fisherYates rand (listSwap l (i + 1) (rand (i + 1) % (i + 2))) i

/-- Source lines 35-41: `shuffleArray`, parameterised by the stream of
random draws. -/
def shuffleArray (l : List α) (rand : Nat → Nat) : List α :=
  fisherYates rand l (l.length - 1)

/-- Source lines 48-62: `generateTiles`, parameterised by the
configuration (`config.rows`, `config.cols`, `config.tileTypes`) and
the random stream.  An odd cell count is an error path returning `[]`;
otherwise the pool holds one pair per needed pair index, drawn
cyclically from `tileTypes`, and is shuffled. -/
def generateTiles (rows cols : Nat) (tileTypes : List String) (rand : Nat → Nat) : List String :=
  let totalTiles := rows * cols
  if totalTiles % 2 ≠ 0 then
    []
  else
    let neededPairs := totalTiles / 2
    let tilePool := ((List.range neededPairs).map
      (fun i =>
        let t := tileTypes.getD (i % tileTypes.length) ""
        [t, t])).flatten
    shuffleArray tilePool rand

/-- Source lines 68-95: the grid built by `createBoard` from the tile
list, row-major (`tileIndex` advances as `r * cols + c`); every cell
starts visible. -/
def createBoard (rows cols : Nat) (tiles : List String) : List (List Cell) :=
  (List.range rows).map (fun r =>
    (List.range cols).map (fun c =>
      { type := tiles.getD (r * cols + c) "", row := r, col := c, visible := true }))

/-- A grid point of the extended (padded) coordinate system; the
one-cell border around the board has row `-1` or `rows`, or col `-1`
or `cols`. -/
structure Coord where
  row : Int
  col : Int
deriving DecidableEq, Repr

/-- Modelled from the spec: the board snapshot passed to the
path-validity operation — fixed dimensions plus the grid of cells
(`BoardView` of spec section 6). -/
structure Board where
  rows : Nat
  cols : Nat
  grid : List (List Cell)
deriving DecidableEq, Repr

/-- The cell at an extended coordinate: `none` for every point outside
the `rows × cols` range (in particular the whole padding border). -/
def Board.cellAt (b : Board) (p : Coord) : Option Cell :=
  if 0 ≤ p.row ∧ p.row < (b.rows : Int) ∧ 0 ≤ p.col ∧ p.col < (b.cols : Int) then
    (b.grid[p.row.toNat]?).bind (fun rowCells => rowCells[p.col.toNat]?)
  else
    none

/-- Modelled from the spec: `isOccupied(row, col)` of the `BoardView`
interface — true iff a tile exists at the position and is currently
visible; border and eliminated cells are passable empty space. -/
def Board.occupied (b : Board) (p : Coord) : Bool :=
  match b.cellAt p with
  | some cell => cell.visible
  | none => false

/-- The coordinate lies in the logical (unpadded) board range. -/
def Board.inRange (b : Board) (p : Coord) : Bool :=
  decide (0 ≤ p.row) && decide (p.row < (b.rows : Int))
    && decide (0 ≤ p.col) && decide (p.col < (b.cols : Int))

/-- The coordinate lies on the board or its one-cell padding border. -/
def Board.inPadded (b : Board) (p : Coord) : Bool :=
  decide (-1 ≤ p.row) && decide (p.row ≤ (b.rows : Int))
    && decide (-1 ≤ p.col) && decide (p.col ≤ (b.cols : Int))

/-- The tile types at the two coordinates both exist and are equal. -/
def Board.sameType (b : Board) (a c : Coord) : Bool :=
  match b.cellAt a, b.cellAt c with
  | some x, some y => x.type == y.type
  | _, _ => false

/-- The integers strictly between `x` and `y` (in either order). -/
def intsBetween (x y : Int) : List Int :=
  (List.range (max x y - min x y - 1).toNat).map (fun k : Nat => min x y + 1 + (k : Int))

/-- Modelled from the spec: the zero-turn clearance rule — the two
points share a row or a column and every cell strictly between them on
that line is empty (not occupied). -/
def segClear (b : Board) (p q : Coord) : Bool :=
  (decide (p.row = q.row)
      && (intsBetween p.col q.col).all (fun c => !(b.occupied { row := p.row, col := c })))
    || (decide (p.col = q.col)
      && (intsBetween p.row q.row).all (fun r => !(b.occupied { row := r, col := p.col })))

/-- The two candidate corner points of the one-turn pass, in the fixed
deterministic order required by the spec: `(a.row, b.col)` before
`(b.row, a.col)`. -/
def oneTurnCorners (a c : Coord) : List Coord :=
  [{ row := a.row, col := c.col }, { row := c.row, col := a.col }]

/-- A corner point `p` connects `a` to `c` with one turn: `p` is empty
and both straight segments are clear. -/
def cornerOK (b : Board) (a c p : Coord) : Bool :=
  !(b.occupied p) && segClear b a p && segClear b p c

/-- Candidate first-turn points of the two-turn pass: every point of
the padded grid on `a`'s row or on `a`'s column. -/
def twoTurnCandidates (b : Board) (a : Coord) : List Coord :=
  ((List.range (b.cols + 2)).map (fun k : Nat => { row := a.row, col := (k : Int) - 1 }))
    ++ ((List.range (b.rows + 2)).map (fun k : Nat => { row := (k : Int) - 1, col := a.col }))

/-- Try a first-turn point `p`: the segment from `a` must be clear and
`p` empty, then `p` must reach `c` with one further turn; returns the
second corner on success. -/
def twoTurnVia (b : Board) (a c p : Coord) : Option Coord :=
  if !(b.occupied p) && segClear b a p then
    (oneTurnCorners p c).find? (fun q => cornerOK b p c q)
  else
    none

/-- The failure taxonomy of spec section 7. -/
inductive PathError where
  | invalidArgument
deriving DecidableEq, Repr

/-- Modelled from the spec: the preconditions of `findPath` — distinct
endpoints, both within the board's coordinate range, both currently
visible, equal tile types. -/
def validArgs (b : Board) (a c : Coord) : Bool :=
  !(decide (a = c)) && b.inRange a && b.inRange c
    && b.occupied a && b.occupied c && b.sameType a c

/-- Modelled from the spec: `findPath(board, a, b) → Path | None`, the
path-validity operation that is absent from the source (its stub
`isPathValid` unconditionally returns `false`).  Malformed input raises
`InvalidArgument`; otherwise three escalating passes run in fixed
order, short-circuiting at the first success: zero turns (2-point
path), one turn (3-point path through a corner), two turns (4-point
path through two corners); `none` if every pass fails. -/
def findPath (b : Board) (a c : Coord) : Except PathError (Option (List Coord)) :=
  if validArgs b a c then
    if segClear b a c then
      Except.ok (some [a, c])
    else
      match (oneTurnCorners a c).find? (fun p => cornerOK b a c p) with
      | some p => Except.ok (some [a, p, c])
      | none =>
        match (twoTurnCandidates b a).findSome?
            (fun p => (twoTurnVia b a c p).map (fun q => (p, q))) with
        | some (p, q) => Except.ok (some [a, p, q, c])
        | none => Except.ok none
  else
    Except.error PathError.invalidArgument

/-- Modelled from the spec: `findPath` threaded through the board state
it was handed — the operation reads the board and performs no writes,
so the state component it returns is the snapshot it received. -/
def findPathRun (b : Board) (a c : Coord) :
    Except PathError (Option (List Coord)) × Board :=
  (findPath b a c, b)

/-- Every point of the padded grid, row-major. -/
def paddedCoords (b : Board) : List Coord :=
  ((List.range (b.rows + 2)).map (fun r : Nat =>
    (List.range (b.cols + 2)).map (fun c : Nat =>
      ({ row := (r : Int) - 1, col := (c : Int) - 1 } : Coord)))).flatten

/-- Modelled from the spec: a route with at most two turns exists
between `a` and `c` — either a clear straight segment, or a clear
polyline through one empty corner of the padded grid, or a clear
polyline through two empty corners of the padded grid. -/
def Connectable (b : Board) (a c : Coord) : Prop :=
  segClear b a c = true
    ∨ (∃ p ∈ paddedCoords b,
        b.occupied p = false ∧ segClear b a p = true ∧ segClear b p c = true)
    ∨ (∃ p ∈ paddedCoords b, ∃ q ∈ paddedCoords b,
        b.occupied p = false ∧ b.occupied q = false
          ∧ segClear b a p = true ∧ segClear b p q = true ∧ segClear b q c = true)

instance (b : Board) (a c : Coord) : Decidable (Connectable b a c) := by
  unfold Connectable
  infer_instance

/-- Shorthand for building a concrete cell in the test fixtures. -/
def mkCell (t : String) (r c : Nat) (v : Bool) : Cell :=
  { type := t, row := r, col := c, visible := v }

/-- Fixture: a 1 × 4 board with the concrete scenario of spec
section 8 — same-type tiles at `(0,0)` and `(0,3)`, the two cells
between them eliminated. -/
def rowBoard : Board :=
  { rows := 1, cols := 4,
    grid := [[mkCell "A" 0 0 true, mkCell "B" 0 1 false,
              mkCell "B" 0 2 false, mkCell "A" 0 3 true]] }

/-- Fixture: a fully occupied 2 × 2 board whose two same-type tiles at
`(0,0)` and `(1,1)` have every route of at most two turns blocked by
the visible tiles at `(0,1)` and `(1,0)`. -/
def denseBoard : Board :=
  { rows := 2, cols := 2,
    grid := [[mkCell "A" 0 0 true, mkCell "B" 0 1 true],
             [mkCell "C" 1 0 true, mkCell "A" 1 1 true]] }

/-- Fixture: a 1 × 2 board grid with a matching pair. -/
def pairGrid : List (List Cell) :=
  [[mkCell "A" 0 0 true, mkCell "A" 0 1 true]]

/-- Fixture: game state with the tile at `(0,0)` selected. -/
def pairState : GameState :=
  { board := pairGrid, selectedTile := some { row := 0, col := 0, type := "A" },
    score := 0, tilesRemaining := 2 }

/-- Fixture: game state with nothing selected. -/
def freshPairState : GameState :=
  { board := pairGrid, selectedTile := none, score := 0, tilesRemaining := 2 }

/-- Fixture: the click on the tile at `(0,1)`. -/
def clickRight : TileRef :=
  { row := 0, col := 1, type := "A" }

/-- Fixture: `freshPairState` after its first click selects `(0,1)`. -/
def freshPairStateAfter : GameState :=
  { freshPairState with selectedTile := some clickRight }

theorem modifyAt_length (l : List α) (i : Nat) (f : α → α) :
    (modifyAt l i f).length = l.length := by
  unfold modifyAt
  cases h : l[i]? with
  | none => rfl
  | some x => simp

theorem getElem?_modifyAt_self (l : List α) (i : Nat) (f : α → α) :
    (modifyAt l i f)[i]? = (l[i]?).map f := by
  unfold modifyAt
  cases h : l[i]? with
  | none => simp [h]
  | some x => simp [List.getElem?_set_self', h]

theorem getElem?_modifyAt_ne (l : List α) (i j : Nat) (f : α → α) (h : i ≠ j) :
    (modifyAt l i f)[j]? = l[j]? := by
  unfold modifyAt
  cases hx : l[i]? with
  | none => rfl
  | some x => exact List.getElem?_set_ne h

theorem cellLookup_setInvisible_self (g : List (List Cell)) (r c : Nat) :
    cellLookup (setInvisible g r c) r c = (cellLookup g r c).map hideCell := by
  unfold cellLookup setInvisible
  rw [getElem?_modifyAt_self]
  cases h : g[r]? with
  | none => rfl
  | some rowCells => simp [getElem?_modifyAt_self]

theorem cellLookup_setInvisible_ne (g : List (List Cell)) (r c r' c' : Nat)
    (h : r ≠ r' ∨ c ≠ c') :
    cellLookup (setInvisible g r c) r' c' = cellLookup g r' c' := by
  unfold cellLookup setInvisible
  by_cases hr : r = r'
  · subst hr
    rcases h with h | h
    · exact absurd rfl h
    · rw [getElem?_modifyAt_self]
      cases hx : g[r]? with
      | none => rfl
      | some rowCells => simp [getElem?_modifyAt_ne _ _ _ _ h]
  · rw [getElem?_modifyAt_ne _ _ _ _ hr]

theorem cellLookup_setInvisible_cases (g : List (List Cell)) (r c r' c' : Nat) :
    cellLookup (setInvisible g r c) r' c' = cellLookup g r' c'
      ∨ cellLookup (setInvisible g r c) r' c'
          = (cellLookup g r' c').map hideCell := by
  by_cases hr : r = r'
  · by_cases hc : c = c'
    · subst hr; subst hc
      exact Or.inr (cellLookup_setInvisible_self g r c)
    · exact Or.inl (cellLookup_setInvisible_ne g r c r' c' (Or.inr hc))
  · exact Or.inl (cellLookup_setInvisible_ne g r c r' c' (Or.inl hr))

theorem hideCell_hideCell (cell : Cell) : hideCell (hideCell cell) = hideCell cell := rfl

theorem setInvisible_length (g : List (List Cell)) (r c : Nat) :
    (setInvisible g r c).length = g.length :=
  modifyAt_length g r _

theorem setInvisible_row_lengths (g : List (List Cell)) (r c r' : Nat) :
    ((setInvisible g r c)[r']?).map List.length = (g[r']?).map List.length := by
  unfold setInvisible
  by_cases hr : r = r'
  · subst hr
    rw [getElem?_modifyAt_self]
    cases hx : g[r]? with
    | none => rfl
    | some rowCells => simp [modifyAt_length]
  · rw [getElem?_modifyAt_ne _ _ _ _ hr]

theorem rejectBranch_eq_error (st : GameState) :
    rejectBranch st = Except.error JsError.typeError := by
  unfold rejectBranch
  cases st.selectedTile <;> rfl

theorem setInvisible2_frame (g : List (List Cell)) (r1 c1 r2 c2 : Nat) :
    (setInvisible (setInvisible g r1 c1) r2 c2).length = g.length
      ∧ (∀ r : Nat, ((setInvisible (setInvisible g r1 c1) r2 c2)[r]?).map List.length
          = (g[r]?).map List.length)
      ∧ ∀ r c : Nat, cellLookup (setInvisible (setInvisible g r1 c1) r2 c2) r c = cellLookup g r c
          ∨ cellLookup (setInvisible (setInvisible g r1 c1) r2 c2) r c
              = (cellLookup g r c).map hideCell := by
  refine ⟨by rw [setInvisible_length, setInvisible_length],
    fun r => by rw [setInvisible_row_lengths, setInvisible_row_lengths],
    fun r c => ?_⟩
  rcases cellLookup_setInvisible_cases (setInvisible g r1 c1) r2 c2 r c with h2 | h2 <;>
    rcases cellLookup_setInvisible_cases g r1 c1 r c with h1 | h1
  · exact Or.inl (by rw [h2, h1])
  · exact Or.inr (by rw [h2, h1])
  · exact Or.inr (by rw [h2, h1])
  · refine Or.inr ?_
    rw [h2, h1, Option.map_map]
    have hcomp : hideCell ∘ hideCell = hideCell := by
      funext cell; rfl
    rw [hcomp]

/-- C2: the two stub functions are mutually contradictory constants —
`isMatchPossible` answers `true` and `isPathValid` answers `false` for
every pair of input tiles, independent of coordinates and of any board
state (neither function even receives the board). -/
theorem stub_constants :
    ∀ t1 t2 u1 u2 : TileRef, isMatchPossible t1 t2 = true ∧ isPathValid u1 u2 = false :=
  fun _ _ _ _ => ⟨rfl, rfl⟩

/-- C8: in the rejection branch of `handleTileClick`,
`state.selectedTile` is nulled before `flashBorder(state.selectedTile.element)`
runs, so executing the branch always throws a `TypeError`; and the
branch is unreachable in the shipped code because `isMatchPossible`
returns `true` for every input, so `handleTileClick` never surfaces
that error. -/
theorem rejectBranch_null_deref :
    (∀ st : GameState, rejectBranch st = Except.error JsError.typeError)
      ∧ (∀ t1 t2 : TileRef, isMatchPossible t1 t2 = true)
      ∧ ∀ (st : GameState) (clicked : TileRef),
          handleTileClick st clicked ≠ Except.error JsError.typeError := by
  refine ⟨rejectBranch_eq_error, fun _ _ => rfl, fun st clicked => ?_⟩
  unfold handleTileClick
  split
  · simp
  · split
    · simp
    · split
      · simp
      · split
        · split
          · simp
          · simp [isMatchPossible] at *
        · simp

/-- C1: the shipped match logic accepts any two same-type tiles — for a
second click on a distinct, non-hidden tile of the selected tile's
type, `isMatchPossible` returns `true` and `handleTileClick` eliminates
both tiles, clearing both cells' `visible` flags, whatever the
positions and whatever else is on the board. -/
theorem handleTileClick_eliminates (st : GameState) (clicked sel : TileRef)
    (hsel : st.selectedTile = some sel)
    (hne : sel.row ≠ clicked.row ∨ sel.col ≠ clicked.col)
    (hty : sel.type = clicked.type)
    (hvis : isHiddenAt st.board clicked.row clicked.col = false) :
    isMatchPossible sel clicked = true
      ∧ ∃ st2, handleTileClick st clicked = Except.ok st2
        ∧ cellLookup st2.board sel.row sel.col
            = (cellLookup st.board sel.row sel.col).map hideCell
        ∧ cellLookup st2.board clicked.row clicked.col
            = (cellLookup st.board clicked.row clicked.col).map hideCell := by
  refine ⟨rfl, ?_⟩
  have hselcls : hasSelectedClass st clicked = false := by
    unfold hasSelectedClass
    rw [hsel]
    rcases hne with h | h <;> simp [h]
  have hbeq : (sel.row == clicked.row && sel.col == clicked.col) = false := by
    rcases hne with h | h <;> simp [h]
  have hstep : handleTileClick st clicked = Except.ok { st with
      board := setInvisible (setInvisible st.board sel.row sel.col) clicked.row clicked.col,
      score := st.score + 10,
      tilesRemaining := st.tilesRemaining - 2,
      selectedTile := none } := by
    simp [handleTileClick, hvis, hselcls, hsel, hbeq, hty, isMatchPossible]
  refine ⟨_, hstep, ?_, ?_⟩
  · rw [cellLookup_setInvisible_ne _ _ _ _ _ (hne.imp Ne.symm Ne.symm),
      cellLookup_setInvisible_self]
  · rw [cellLookup_setInvisible_self,
      cellLookup_setInvisible_ne _ _ _ _ _ hne]

theorem handleTileClick_eliminates_witness :
    isMatchPossible { row := 0, col := 0, type := "A" } clickRight = true
      ∧ ∃ st2, handleTileClick pairState clickRight = Except.ok st2
        ∧ cellLookup st2.board 0 0 = (cellLookup pairState.board 0 0).map hideCell
        ∧ cellLookup st2.board 0 1 = (cellLookup pairState.board 0 1).map hideCell :=
  handleTileClick_eliminates pairState clickRight { row := 0, col := 0, type := "A" }
    rfl (Or.inr (by decide)) rfl (by decide)

/-- C5: a click transition never changes the board's dimensions, and it
changes the grid only by clearing `visible` flags — every cell of the
resulting board is either the unchanged original cell or the original
cell with `visible := false` and its position and tile type intact. -/
theorem handleTileClick_visibility_frame (st : GameState) (clicked : TileRef) (st2 : GameState)
    (h : handleTileClick st clicked = Except.ok st2) :
    st2.board.length = st.board.length
      ∧ (∀ r : Nat, (st2.board[r]?).map List.length = (st.board[r]?).map List.length)
      ∧ ∀ r c : Nat, cellLookup st2.board r c = cellLookup st.board r c
          ∨ cellLookup st2.board r c = (cellLookup st.board r c).map hideCell := by
  have hsame : ∀ st3 : GameState, st3.board = st.board →
      st3.board.length = st.board.length
        ∧ (∀ r : Nat, (st3.board[r]?).map List.length = (st.board[r]?).map List.length)
        ∧ ∀ r c : Nat, cellLookup st3.board r c = cellLookup st.board r c
            ∨ cellLookup st3.board r c = (cellLookup st.board r c).map hideCell := by
    intro st3 hb
    rw [hb]
    exact ⟨rfl, fun _ => rfl, fun _ _ => Or.inl rfl⟩
  unfold handleTileClick at h
  split at h
  · cases h
    exact hsame _ rfl
  · split at h
    · cases h
      exact hsame _ rfl
    · split at h
      · cases h
        exact hsame _ rfl
      · split at h
        · split at h
          · cases h
            exact setInvisible2_frame st.board _ _ _ _
          · rw [rejectBranch_eq_error] at h
            cases h
        · cases h
          exact hsame _ rfl

theorem handleTileClick_visibility_frame_witness :
    freshPairStateAfter.board.length = freshPairState.board.length
      ∧ (∀ r : Nat, (freshPairStateAfter.board[r]?).map List.length
          = (freshPairState.board[r]?).map List.length)
      ∧ ∀ r c : Nat, cellLookup freshPairStateAfter.board r c = cellLookup freshPairState.board r c
          ∨ cellLookup freshPairStateAfter.board r c
              = (cellLookup freshPairState.board r c).map hideCell :=
  handleTileClick_visibility_frame freshPairState clickRight freshPairStateAfter rfl

theorem cons_set_perm (t : List α) (m : Nat) (h : m < t.length) (a : α) :
    (t[m] :: t.set m a).Perm (a :: t) := by
  induction t generalizing m with
  | nil => simp at h
  | cons b t ih =>
    cases m with
    | zero => simpa using List.Perm.swap a b t
    | succ m =>
      have hm : m < t.length := by simpa using h
      have step1 : (t[m] :: b :: t.set m a).Perm (b :: t[m] :: t.set m a) :=
        List.Perm.swap b (t[m]) (t.set m a)
      have step2 : (b :: t[m] :: t.set m a).Perm (b :: a :: t) :=
        List.Perm.cons b (ih m hm)
      have step3 : (b :: a :: t).Perm (a :: b :: t) := List.Perm.swap a b t
      simpa using (step1.trans step2).trans step3

theorem set_set_perm (l : List α) (i j : Nat) (hi : i < l.length) (hj : j < l.length) :
    ((l.set i l[j]).set j l[i]).Perm l := by
  induction l generalizing i j with
  | nil => simp at hi
  | cons x t ih =>
    cases i with
    | zero =>
      cases j with
      | zero => simp
      | succ j =>
        have hjt : j < t.length := by simpa using hj
        simpa using cons_set_perm t j hjt x
    | succ i =>
      cases j with
      | zero =>
        have hit : i < t.length := by simpa using hi
        simpa using cons_set_perm t i hit x
      | succ j =>
        have hit : i < t.length := by simpa using hi
        have hjt : j < t.length := by simpa using hj
        simpa using List.Perm.cons x (ih i j hit hjt)

theorem listSwap_perm (l : List α) (i j : Nat) : (listSwap l i j).Perm l := by
  unfold listSwap
  cases hi : l[i]? with
  | none => exact List.Perm.refl l
  | some a =>
    cases hj : l[j]? with
    | none => exact List.Perm.refl l
    | some b =>
      obtain ⟨hi2, ha⟩ := List.getElem?_eq_some.mp hi
      obtain ⟨hj2, hb⟩ := List.getElem?_eq_some.mp hj
      rw [← ha, ← hb]
      exact set_set_perm l i j hi2 hj2

theorem fisherYates_perm (rand : Nat → Nat) (l : List α) (n : Nat) :
    (fisherYates rand l n).Perm l := by
  induction n generalizing l with
  | zero => exact List.Perm.refl l
  | succ n ih =>
    exact (ih (listSwap l (n + 1) (rand (n + 1) % (n + 2)))).trans
      (listSwap_perm l (n + 1) (rand (n + 1) % (n + 2)))

theorem shuffleArray_perm (l : List α) (rand : Nat → Nat) :
    (shuffleArray l rand).Perm l :=
  fisherYates_perm rand l (l.length - 1)

/-- C10: `shuffleArray` returns a list of the same length holding
exactly the same multiset of elements as its input — a permutation of
the input — for every stream of random draws; in the source the
returned array is moreover the very array it mutated in place, which
the embedding renders by returning the post-swap contents of that
array. -/
theorem shuffleArray_permutation (l : List α) (rand : Nat → Nat) :
    (shuffleArray l rand).length = l.length
      ∧ (shuffleArray l rand).Perm l
      ∧ ((shuffleArray l rand : List α) : Multiset α) = (l : Multiset α) := by
  have h := shuffleArray_perm l rand
  exact ⟨h.length_eq, h, Multiset.coe_eq_coe.mpr h⟩

theorem sum_map_two (n : Nat) : ((List.range n).map (fun _ => 2)).sum = 2 * n := by
  induction n with
  | zero => rfl
  | succ n ih =>
    rw [List.range_succ, List.map_append, List.sum_append]
    simp [ih]
    omega

theorem count_pair_even (x t : String) : 2 ∣ List.count t [x, x] := by
  by_cases hx : x = t <;> simp [hx, List.count_cons]

theorem tilePool_length (n : Nat) (f : Nat → String) :
    (((List.range n).map (fun i => [f i, f i])).flatten).length = 2 * n := by
  rw [List.length_flatten, List.map_map]
  have : (List.length ∘ fun i => [f i, f i]) = fun _ => 2 := by
    funext i; rfl
  rw [this, sum_map_two]

theorem tilePool_count_even (n : Nat) (f : Nat → String) (t : String) :
    2 ∣ (((List.range n).map (fun i => [f i, f i])).flatten).count t := by
  rw [List.count_flatten, List.map_map]
  refine List.dvd_sum ?_
  intro x hx
  obtain ⟨i, _, hxval⟩ := List.mem_map.mp hx
  rw [← hxval]
  exact count_pair_even (f i) t

/-- C9: when `rows * cols` is even, `generateTiles` returns exactly
`rows * cols` tile types in which every type occurs an even number of
times (the tiles come in complete pairs, and shuffling permutes them);
when `rows * cols` is odd it returns the empty array. -/
theorem generateTiles_pairs (rows cols : Nat) (tileTypes : List String) (rand : Nat → Nat) :
    (rows * cols % 2 = 0 →
      (generateTiles rows cols tileTypes rand).length = rows * cols
        ∧ ∀ t : String, 2 ∣ (generateTiles rows cols tileTypes rand).count t)
    ∧ (rows * cols % 2 ≠ 0 → generateTiles rows cols tileTypes rand = []) := by
  constructor
  · intro heven
    have hgen : generateTiles rows cols tileTypes rand
        = shuffleArray (((List.range (rows * cols / 2)).map
            (fun i =>
              let t := tileTypes.getD (i % tileTypes.length) ""
              [t, t])).flatten) rand := by
      unfold generateTiles
      rw [if_neg (by simp [heven])]
    have hperm := shuffleArray_perm (((List.range (rows * cols / 2)).map
        (fun i =>
          let t := tileTypes.getD (i % tileTypes.length) ""
          [t, t])).flatten) rand
    have hpool : (((List.range (rows * cols / 2)).map
        (fun i =>
          let t := tileTypes.getD (i % tileTypes.length) ""
          [t, t])).flatten).length = 2 * (rows * cols / 2) :=
      tilePool_length (rows * cols / 2) (fun i => tileTypes.getD (i % tileTypes.length) "")
    constructor
    · rw [hgen, hperm.length_eq, hpool]
      exact Nat.mul_div_cancel' (Nat.dvd_of_mod_eq_zero heven)
    · intro t
      rw [hgen, hperm.count_eq]
      exact tilePool_count_even (rows * cols / 2)
        (fun i => tileTypes.getD (i % tileTypes.length) "") t
  · intro hodd
    unfold generateTiles
    rw [if_pos (by simpa using hodd)]

theorem generateTiles_pairs_witness :
    (generateTiles 2 3 ["a", "b"] (fun i => i + 1)).length = 2 * 3
      ∧ 2 ∣ (generateTiles 2 3 ["a", "b"] (fun i => i + 1)).count "a"
      ∧ generateTiles 3 3 ["a", "b"] (fun i => i + 1) = [] :=
  ⟨((generateTiles_pairs 2 3 ["a", "b"] (fun i => i + 1)).1 (by decide)).1,
    ((generateTiles_pairs 2 3 ["a", "b"] (fun i => i + 1)).1 (by decide)).2 "a",
    (generateTiles_pairs 3 3 ["a", "b"] (fun i => i + 1)).2 (by decide)⟩

/-- C3: every malformed call of the path-validity operation — an
out-of-range endpoint, mismatched tile types, identical endpoints, or
an invisible endpoint — is answered with the `InvalidArgument` failure,
never with the normal "no path" result. -/
theorem findPath_invalid_argument (b : Board) (a c : Coord)
    (h : a = c ∨ b.inRange a = false ∨ b.inRange c = false
      ∨ b.occupied a = false ∨ b.occupied c = false ∨ b.sameType a c = false) :
    findPath b a c = Except.error PathError.invalidArgument := by
  have hva : validArgs b a c = false := by
    unfold validArgs
    rcases h with h | h | h | h | h | h <;> simp [h]
  unfold findPath
  rw [hva]
  rfl

theorem findPath_invalid_argument_witness :
    findPath denseBoard { row := 0, col := 0 } { row := 0, col := 0 }
      = Except.error PathError.invalidArgument :=
  findPath_invalid_argument denseBoard { row := 0, col := 0 } { row := 0, col := 0 }
    (Or.inl rfl)

/-- C4: for every board and every pair of distinct, visible, same-type
cells that share a row or column with every cell strictly between them
empty, the path-validity operation succeeds with the 2-point path made
of exactly the two endpoints (zero-turn case). -/
theorem findPath_zero_turn (b : Board) (a c : Coord)
    (hne : a ≠ c) (hra : b.inRange a = true) (hrc : b.inRange c = true)
    (hoa : b.occupied a = true) (hoc : b.occupied c = true)
    (hty : b.sameType a c = true) (hclear : segClear b a c = true) :
    findPath b a c = Except.ok (some [a, c]) := by
  have hva : validArgs b a c = true := by
    unfold validArgs
    simp [hne, hra, hrc, hoa, hoc, hty]
  unfold findPath
  rw [hva, if_pos rfl, if_pos hclear]

theorem findPath_zero_turn_witness :
    findPath rowBoard { row := 0, col := 0 } { row := 0, col := 3 }
      = Except.ok (some [{ row := 0, col := 0 }, { row := 0, col := 3 }]) :=
  findPath_zero_turn rowBoard { row := 0, col := 0 } { row := 0, col := 3 }
    (by decide) (by decide) (by decide) (by decide) (by decide) (by decide) (by decide)

/-- C6: the path-validity operation is free of side effects on the
board and deterministic — the board state it hands back is the very
snapshot it received, cell for cell, and re-running it on that state
with the same endpoints yields the same result. -/
theorem findPathRun_pure (b : Board) (a c : Coord) :
    (findPathRun b a c).2 = b
      ∧ (∀ p : Coord, ((findPathRun b a c).2).cellAt p = b.cellAt p)
      ∧ (findPathRun ((findPathRun b a c).2) a c).1 = (findPathRun b a c).1 :=
  ⟨rfl, fun _ => rfl, rfl⟩

theorem validArgs_true_iff (b : Board) (a c : Coord) :
    validArgs b a c = true ↔
      (a ≠ c ∧ b.inRange a = true ∧ b.inRange c = true
        ∧ b.occupied a = true ∧ b.occupied c = true ∧ b.sameType a c = true) := by
  unfold validArgs
  simp [and_assoc]

theorem inRange_bounds (b : Board) (p : Coord) :
    b.inRange p = true ↔
      (0 ≤ p.row ∧ p.row < (b.rows : Int) ∧ 0 ≤ p.col ∧ p.col < (b.cols : Int)) := by
  unfold Board.inRange
  simp [and_assoc]

theorem cornerOK_true_iff (b : Board) (a c p : Coord) :
    cornerOK b a c p = true ↔
      (b.occupied p = false ∧ segClear b a p = true ∧ segClear b p c = true) := by
  unfold cornerOK
  simp [and_assoc, Bool.not_eq_true']

theorem mem_paddedCoords (b : Board) (p : Coord) :
    p ∈ paddedCoords b ↔
      (-1 ≤ p.row ∧ p.row ≤ (b.rows : Int) ∧ -1 ≤ p.col ∧ p.col ≤ (b.cols : Int)) := by
  obtain ⟨pr, pc⟩ := p
  unfold paddedCoords
  dsimp only
  constructor
  · intro hp
    obtain ⟨l, hl, hpl⟩ := List.mem_flatten.mp hp
    obtain ⟨r, hr, rfl⟩ := List.mem_map.mp hl
    obtain ⟨s, hs, hpeq⟩ := List.mem_map.mp hpl
    rw [List.mem_range] at hr hs
    injection hpeq with h1 h2
    refine ⟨?_, ?_, ?_, ?_⟩ <;> omega
  · rintro ⟨h1, h2, h3, h4⟩
    apply List.mem_flatten.mpr
    refine ⟨_, List.mem_map.mpr ⟨(pr + 1).toNat, List.mem_range.mpr (by omega), rfl⟩, ?_⟩
    apply List.mem_map.mpr
    refine ⟨(pc + 1).toNat, List.mem_range.mpr (by omega), ?_⟩
    have e1 : ((pr + 1).toNat : Int) - 1 = pr := by omega
    have e2 : ((pc + 1).toNat : Int) - 1 = pc := by omega
    rw [e1, e2]

theorem mem_twoTurnCandidates (b : Board) (a p : Coord) (hp : p ∈ twoTurnCandidates b a) :
    (p.row = a.row ∧ -1 ≤ p.col ∧ p.col ≤ (b.cols : Int))
      ∨ (p.col = a.col ∧ -1 ≤ p.row ∧ p.row ≤ (b.rows : Int)) := by
  unfold twoTurnCandidates at hp
  rcases List.mem_append.mp hp with h | h
  · obtain ⟨k, hk, rfl⟩ := List.mem_map.mp h
    rw [List.mem_range] at hk
    exact Or.inl ⟨rfl, by dsimp only; omega, by dsimp only; omega⟩
  · obtain ⟨k, hk, rfl⟩ := List.mem_map.mp h
    rw [List.mem_range] at hk
    exact Or.inr ⟨rfl, by dsimp only; omega, by dsimp only; omega⟩

/-- C7: whenever the arguments are well formed but every route of at
most two turns between the two cells is blocked by visible tiles, the
path-validity operation returns the normal `none` ("no path") result. -/
theorem findPath_none_of_blocked (b : Board) (a c : Coord)
    (hv : validArgs b a c = true) (hnc : ¬ Connectable b a c) :
    findPath b a c = Except.ok none := by
  obtain ⟨hne, hra, hrc, hoa, hoc, hty⟩ := (validArgs_true_iff b a c).mp hv
  obtain ⟨ha1, ha2, ha3, ha4⟩ := (inRange_bounds b a).mp hra
  obtain ⟨hc1, hc2, hc3, hc4⟩ := (inRange_bounds b c).mp hrc
  have hzero : segClear b a c = false := by
    cases hs : segClear b a c
    · rfl
    · exact absurd (Or.inl hs) hnc
  have hone : (oneTurnCorners a c).find? (fun p => cornerOK b a c p) = none := by
    cases hf : (oneTurnCorners a c).find? (fun p => cornerOK b a c p) with
    | none => rfl
    | some p =>
      have hmem := List.mem_of_find?_eq_some hf
      have hok := List.find?_some hf
      obtain ⟨hocc, hs1, hs2⟩ := (cornerOK_true_iff b a c p).mp hok
      have hpad : p ∈ paddedCoords b := by
        rw [mem_paddedCoords]
        simp only [oneTurnCorners, List.mem_cons, List.not_mem_nil, or_false] at hmem
        rcases hmem with rfl | rfl
        · refine ⟨?_, ?_, ?_, ?_⟩ <;> dsimp only <;> omega
        · refine ⟨?_, ?_, ?_, ?_⟩ <;> dsimp only <;> omega
      exact absurd (Or.inr (Or.inl ⟨p, hpad, hocc, hs1, hs2⟩)) hnc
  have htwo : (twoTurnCandidates b a).findSome?
      (fun p => (twoTurnVia b a c p).map (fun q => (p, q))) = none := by
    cases hf : (twoTurnCandidates b a).findSome?
        (fun p => (twoTurnVia b a c p).map (fun q => (p, q))) with
    | none => rfl
    | some pq =>
      obtain ⟨p0, hp0mem, hp0⟩ := List.exists_of_findSome?_eq_some hf
      cases hvia : twoTurnVia b a c p0 with
      | none => rw [hvia] at hp0; simp at hp0
      | some q =>
        unfold twoTurnVia at hvia
        split at hvia
        · rename_i hcond
          obtain ⟨hocc0, hsa⟩ : b.occupied p0 = false ∧ segClear b a p0 = true := by
            simp only [Bool.and_eq_true, Bool.not_eq_true'] at hcond
            exact hcond
          have hqmem := List.mem_of_find?_eq_some hvia
          have hqok := List.find?_some hvia
          obtain ⟨hoccq, hpq, hqc⟩ := (cornerOK_true_iff b p0 c q).mp hqok
          have hp0bounds := mem_twoTurnCandidates b a p0 hp0mem
          have hp0pad : p0 ∈ paddedCoords b := by
            rw [mem_paddedCoords]
            rcases hp0bounds with ⟨h1, h2, h3⟩ | ⟨h1, h2, h3⟩ <;>
              refine ⟨by omega, by omega, by omega, by omega⟩
          have hp0r : -1 ≤ p0.row ∧ p0.row ≤ (b.rows : Int)
              ∧ -1 ≤ p0.col ∧ p0.col ≤ (b.cols : Int) :=
            (mem_paddedCoords b p0).mp hp0pad
          have hqpad : q ∈ paddedCoords b := by
            rw [mem_paddedCoords]
            simp only [oneTurnCorners, List.mem_cons, List.not_mem_nil, or_false] at hqmem
            rcases hqmem with rfl | rfl
            · refine ⟨?_, ?_, ?_, ?_⟩ <;> dsimp only <;> omega
            · refine ⟨?_, ?_, ?_, ?_⟩ <;> dsimp only <;> omega
          exact absurd (Or.inr (Or.inr
            ⟨p0, hp0pad, q, hqpad, hocc0, hoccq, hsa, hpq, hqc⟩)) hnc
        · exact absurd hvia (by simp)
  unfold findPath
  rw [hv]
  simp only [if_true]
  rw [hzero]
  simp only [Bool.false_eq_true, if_false]
  rw [hone, htwo]

theorem findPath_none_of_blocked_witness :
    findPath denseBoard { row := 0, col := 0 } { row := 1, col := 1 } = Except.ok none :=
  findPath_none_of_blocked denseBoard { row := 0, col := 0 } { row := 1, col := 1 }
    (by decide) (by decide)

theorem rejectBranch_null_deref_witness :
    rejectBranch pairState = Except.error JsError.typeError
      ∧ isMatchPossible clickRight clickRight = true
      ∧ handleTileClick pairState clickRight ≠ Except.error JsError.typeError :=
  ⟨rejectBranch_null_deref.1 pairState,
    rejectBranch_null_deref.2.1 clickRight clickRight,
    rejectBranch_null_deref.2.2 pairState clickRight⟩
